import Mathlib

/-!
Verification of the Cognito OAuth compatibility shim in `auth.py` of the
fastmail-mcp-server repository.

Shallow embedding conventions:
* Python strings are Lean `String`s; path manipulation works on `String.data`
  (a `List Char`).
* The OIDC metadata dict is a structure holding the keys the code touches,
  plus an association list `rest` for all other keys (which the code never
  reads or writes).
* `os.environ[...]` lookups that may raise `KeyError` are modelled as
  `Except String` values; the outbound HTTP fetch is an abstract
  `Except Unit MetaDoc` collaborator, and each call reports how many
  outbound fetches it performed.
-/

namespace FastmailMCP

/-! ## String helpers (Python `str` operations used by auth.py) -/

/-- Python `"//" in path`: substring test for two consecutive slashes. -/
def containsDoubleSlash : List Char → Bool
  | a :: b :: rest => (a == '/' && b == '/') || containsDoubleSlash (b :: rest)
  | _ => false

/-- Python `s.rstrip("/")` on the character list: remove all trailing slashes. -/
def dropTrailingSlashes (l : List Char) : List Char :=
  (l.reverse.dropWhile (fun c => c == '/')).reverse

/-- Python `s.rstrip("/")` lifted to `String`. -/
def rstripSlash (s : String) : String :=
  ⟨dropTrailingSlashes s.data⟩

/-! ## OIDC / OAuth AS metadata documents

`MetaDoc` models the JSON object returned by Cognito's
`/.well-known/openid-configuration`, restricted to the keys
`_get_cognito_metadata` reads or writes; every other key lives untouched in
`rest`. An absent key is `none`. -/

structure MetaDoc where
  issuer : Option String := none
  code_challenge_methods_supported : Option (List String) := none
  grant_types_supported : Option (List String) := none
  token_endpoint_auth_methods_supported : Option (List String) := none
  response_types_supported : Option (List String) := none
  registration_endpoint : Option String := none
  rest : List (String × String) := []
deriving DecidableEq, Repr

/-- The empty JSON object `{}` (falsy in Python). -/
def MetaDoc.emptyDoc : MetaDoc := {}

/-- auth.py lines 35–51: the augmentation `_get_cognito_metadata` applies to the
fetched document before caching it. -/
def augmentCognitoMetadata (base_url : String) (m : MetaDoc) : MetaDoc :=
  let m := { m with code_challenge_methods_supported := some ["S256"] }
  let m := { m with grant_types_supported := some ["authorization_code", "refresh_token"] }
  let m := { m with token_endpoint_auth_methods_supported := some ["client_secret_basic", "client_secret_post", "none"] }
  let m :=
    if "code" ∈ m.response_types_supported.getD [] then m
    else { m with response_types_supported := some (m.response_types_supported.getD [] ++ ["code"]) }
  let m := { m with registration_endpoint := some (base_url ++ "/oauth/register") }
  { m with issuer := some base_url }

/-! ## Metadata cache and fetch (auth.py lines 21–54)

`_get_cognito_metadata` consults the process-wide cache
`_cognito_metadata_cache` (falsy when `None` or the empty dict), and on a miss
awaits the outbound GET — modelled by the abstract `fetch` argument, `.error`
standing for a network error or the `raise_for_status` exception on a non-2xx
response. Each call returns the raised-or-returned value, the cache state
after the call, and the number of outbound fetches it performed. -/

/-- The fetch path of `_get_cognito_metadata` (cache miss): one outbound call;
on success the augmented document is stored in the cache and returned, on
failure the exception propagates and the cache is left as it was. -/
def fetchCognitoMetadata (base_url : String) (fetch : Except Unit MetaDoc)
    (cache : Option MetaDoc) : Except Unit MetaDoc × Option MetaDoc × Nat :=
  match fetch with
  | .error e => (.error e, cache, 1)
  | .ok raw =>
    (.ok (augmentCognitoMetadata base_url raw), some (augmentCognitoMetadata base_url raw), 1)

/-- auth.py lines 21–54: `_get_cognito_metadata`. Python's
`if _cognito_metadata_cache:` is truthiness: `None` and `{}` both fall through
to the fetch path. -/
def getCognitoMetadata (base_url : String) (fetch : Except Unit MetaDoc)
    (cache : Option MetaDoc) : Except Unit MetaDoc × Option MetaDoc × Nat :=
  match cache with
  | some c =>
    if c = MetaDoc.emptyDoc then fetchCognitoMetadata base_url fetch cache
    else (.ok c, some c, 0)
  | none => fetchCognitoMetadata base_url fetch cache

/-- The response `JSONResponse(metadata, headers=...)` of the discovery
handler: status 200 (the `JSONResponse` default), the metadata document as
body, and the CORS headers. -/
structure ASMetadataResponse where
  status : Nat
  body : MetaDoc
  headers : List (String × String)
deriving DecidableEq, Repr

/-- auth.py lines 57–66: `_oauth_authorization_server_metadata`. The handler
never inspects `request.method`; the route (lines 185–191) dispatches both GET
and OPTIONS here. An exception from the cache/fetch propagates. -/
def oauthASMetadataHandler (method : String) (base_url : String)
    (fetch : Except Unit MetaDoc) (cache : Option MetaDoc) :
    Except Unit ASMetadataResponse × Option MetaDoc × Nat :=
  match getCognitoMetadata base_url fetch cache with
  | (.error e, c, n) => (.error e, c, n)
  | (.ok metadata, c, n) =>
    (.ok { status := 200, body := metadata,
           headers := [("Access-Control-Allow-Origin", "*"),
                       ("Access-Control-Allow-Methods", "GET, OPTIONS")] }, c, n)

/-! ## Dynamic Client Registration (auth.py lines 69–117) -/

/-- The environment variables the POST path of `_oauth_register` reads.
`COGNITO_PUBLIC_CLIENT_ID` and `COGNITO_AUDIENCE` are read with
`os.environ[...]` (raises `KeyError` when absent), `COGNITO_CLIENT_SECRET`
with `os.environ.get` (yields `None` when absent). -/
structure RegisterEnv where
  publicClientId : Option String
  audience : Option String
  clientSecret : Option String

/-- A parsed JSON object body for `/oauth/register`; `none` marks an absent
key (Python `body.get` with a default). -/
structure RegBody where
  redirect_uris : Option (List String) := none
  client_name : Option String := none
  token_endpoint_auth_method : Option String := none

/-- The 201 JSON response of the POST path of `_oauth_register`. -/
structure RegResponse where
  client_id : String
  client_name : String
  redirect_uris : List String
  grant_types : List String
  response_types : List String
  token_endpoint_auth_method : String
  client_secret : Option String
  status : Nat
deriving DecidableEq, Repr

/-- Python `os.environ[name]`: the value, or a `KeyError` when unset. -/
def environGet (name : String) : Option String → Except String String
  | some v => .ok v
  | none => .error ("KeyError: " ++ name)

/-- auth.py lines 85–117: the POST path of `_oauth_register`. Defaults are
substituted for missing body fields; the public client ID is handed out for
auth method `"none"`, the confidential one (`COGNITO_AUDIENCE`) otherwise;
`client_secret` is attached only when the env value is truthy (set and
non-empty) and the method is not `"none"`. -/
def oauthRegisterPost (env : RegisterEnv) (body : RegBody) : Except String RegResponse :=
  let redirect_uris := body.redirect_uris.getD []
  let client_name := body.client_name.getD "unknown"
  let token_auth_method := body.token_endpoint_auth_method.getD "none"
  match (if token_auth_method = "none" then environGet "COGNITO_PUBLIC_CLIENT_ID" env.publicClientId
         else environGet "COGNITO_AUDIENCE" env.audience) with
  | .error e => .error e
  | .ok client_id =>
    .ok { client_id := client_id
          client_name := client_name
          redirect_uris := redirect_uris
          grant_types := ["authorization_code", "refresh_token"]
          response_types := ["code"]
          token_endpoint_auth_method := token_auth_method
          client_secret :=
            match env.clientSecret with
            | some s => if s ≠ "" ∧ token_auth_method ≠ "none" then some s else none
            | none => none
          status := 201 }

/-- A client secret is configured when `COGNITO_CLIENT_SECRET` is set to a
truthy (non-empty) value. -/
def secretConfigured (env : RegisterEnv) : Prop :=
  ∃ s, env.clientSecret = some s ∧ s ≠ ""

/-- The credential part of a registration outcome: `client_id` and the
optional `client_secret`. -/
def registerCredentials (res : Except String RegResponse) : Except String (String × Option String) :=
  res.map fun r => (r.client_id, r.client_secret)

/-! ## Protected resource metadata (auth.py lines 137–144 and 160–172) -/

/-- The fixed-shape protected resource metadata document. -/
structure ProtectedResourceMetadata where
  resource : String
  authorization_servers : List String
  scopes_supported : List String
  bearer_methods_supported : List String
deriving DecidableEq, Repr

/-- auth.py lines 137–144: `_protected_resource_metadata_json`. -/
def protected_resource_metadata_json (base_url mcp_path : String) : ProtectedResourceMetadata :=
  { resource := base_url ++ mcp_path
    authorization_servers := [base_url]
    scopes_supported := []
    bearer_methods_supported := ["header"] }

/-- auth.py lines 160–162: `get_routes` strips trailing slashes from the
configured base URL (`str(self.base_url).rstrip("/")`) before building the
document served at the root well-known path. -/
def rootProtectedResourceMetadata (base_url mcp_path : String) : ProtectedResourceMetadata :=
  protected_resource_metadata_json (rstripSlash base_url) mcp_path

/-! ## Slash-normalization middleware (auth.py lines 18 and 120–134) -/

/-- auth.py line 18 applied at line 133: `_DOUBLE_SLASH_RE.sub("/", path)` for
`_DOUBLE_SLASH_RE = re.compile(r"/{2,}")`: each leftmost maximal run of two or
more slashes is replaced by a single slash; everything else is copied. -/
def doubleSlashReSub : List Char → List Char
  | [] => []
  | '/' :: '/' :: rest => '/' :: doubleSlashReSub (rest.dropWhile (fun c => c == '/'))
  | c :: rest => c :: doubleSlashReSub rest
termination_by l => l.length
decreasing_by
  all_goals simp_wf
  all_goals
    try have h : (rest.dropWhile (fun c => c == '/')).length ≤ rest.length :=
      (List.dropWhile_suffix _).sublist.length_le
  all_goals omega

/-- auth.py lines 131–134: the path rewrite of
`SlashNormalizationMiddleware.__call__` on an HTTP scope — the substitution
runs only when the path contains `"//"`. -/
def slashNormalizePath (path : List Char) : List Char :=
  if containsDoubleSlash path then doubleSlashReSub path else path

/-- Modelled from the spec's words (§4.5, claim C5): scanning left to right
while remembering whether the previous character was a separator, every
maximal run of two or more consecutive separators contributes a single
separator to the output, a lone separator stays, and every other character
passes through. -/
def specCollapseRunsAux : Bool → List Char → List Char
  | _, [] => []
  | prevSlash, c :: rest =>
    if c = '/' then
      (if prevSlash then [] else ['/']) ++ specCollapseRunsAux true rest
    else c :: specCollapseRunsAux false rest

/-- Spec-side path normalization: collapse every run of separators. -/
def specCollapseRuns (path : List Char) : List Char :=
  specCollapseRunsAux false path

/-! ## Helper lemmas -/

theorem head_dropWhile_ne_slash (l : List Char) :
    (l.dropWhile (fun c => c == '/')).head? ≠ some '/' := by
  induction l with
  | nil => simp
  | cons c rest ih =>
    by_cases hc : c = '/'
    · simpa [List.dropWhile_cons, hc] using ih
    · simp [List.dropWhile_cons, hc]

theorem dropTrailingSlashes_getLast (l : List Char) :
    (dropTrailingSlashes l).getLast? ≠ some '/' := by
  unfold dropTrailingSlashes
  rw [List.getLast?_reverse]
  exact head_dropWhile_ne_slash _

theorem containsDoubleSlash_append (A B : List Char) (hA : A.getLast? ≠ some '/') :
    containsDoubleSlash (A ++ B) = (containsDoubleSlash A || containsDoubleSlash B) := by
  induction A with
  | nil => simp [containsDoubleSlash]
  | cons a A ih =>
    cases A with
    | nil =>
      have ha : ¬ a = '/' := by simpa using hA
      cases B with
      | nil => simp [containsDoubleSlash]
      | cons b B' => simp [containsDoubleSlash, ha]
    | cons a2 A' =>
      have hA' : (a2 :: A').getLast? ≠ some '/' := by
        rwa [List.getLast?_cons_cons] at hA
      simp only [List.cons_append] at ih ⊢
      simp [containsDoubleSlash, ih hA', Bool.or_assoc]

theorem containsDoubleSlash_tail (c : Char) (r : List Char)
    (h : containsDoubleSlash (c :: r) = false) : containsDoubleSlash r = false := by
  cases r with
  | nil => rfl
  | cons b r' =>
    simp [containsDoubleSlash] at h
    exact h.2

theorem specAux_true_eq_dropWhile (r : List Char) :
    specCollapseRunsAux true r = specCollapseRunsAux false (r.dropWhile (fun c => c == '/')) := by
  induction r with
  | nil => rfl
  | cons c r ih =>
    by_cases hc : c = '/'
    · subst hc
      simpa [specCollapseRunsAux, List.dropWhile_cons] using ih
    · simp [specCollapseRunsAux, List.dropWhile_cons, hc]

theorem specAux_id_of_no_double (q : List Char) :
    (containsDoubleSlash q = false → specCollapseRunsAux false q = q) ∧
    (containsDoubleSlash q = false → q.head? ≠ some '/' →
      specCollapseRunsAux true q = q) := by
  induction q with
  | nil => exact ⟨fun _ => rfl, fun _ _ => rfl⟩
  | cons c r ih =>
    constructor
    · intro hcds
      by_cases hc : c = '/'
      · subst hc
        cases r with
        | nil => rfl
        | cons d r' =>
          have hd : ¬ d = '/' := by
            intro hdeq
            subst hdeq
            simp [containsDoubleSlash] at hcds
          have hr : containsDoubleSlash (d :: r') = false :=
            containsDoubleSlash_tail _ _ hcds
          have h2 : specCollapseRunsAux true (d :: r') = d :: r' :=
            ih.2 hr (by simp [hd])
          have hstep : specCollapseRunsAux false ('/' :: d :: r') =
              '/' :: specCollapseRunsAux true (d :: r') := rfl
          rw [hstep, h2]
      · have hr : containsDoubleSlash r = false := containsDoubleSlash_tail _ _ hcds
        simp [specCollapseRunsAux, hc, ih.1 hr]
    · intro hcds hhead
      have hc : ¬ c = '/' := fun h => hhead (by simp [h])
      have hr : containsDoubleSlash r = false := containsDoubleSlash_tail _ _ hcds
      simp [specCollapseRunsAux, hc, ih.1 hr]

theorem reSub_eq_specCollapse (l : List Char) :
    doubleSlashReSub l = specCollapseRunsAux false l := by
  induction l using doubleSlashReSub.induct with
  | case1 => simp [doubleSlashReSub, specCollapseRunsAux]
  | case2 rest ih =>
    have hstep : doubleSlashReSub ('/' :: '/' :: rest) =
        '/' :: doubleSlashReSub (rest.dropWhile (fun c => c == '/')) := by
      simp [doubleSlashReSub]
    have hstep2 : specCollapseRunsAux false ('/' :: '/' :: rest) =
        '/' :: specCollapseRunsAux true rest := rfl
    rw [hstep, ih, hstep2, specAux_true_eq_dropWhile]
  | case3 c rest hshape ih =>
    by_cases hc : c = '/'
    · subst hc
      cases rest with
      | nil => simp [doubleSlashReSub, specCollapseRunsAux]
      | cons d r' =>
        have hd : ¬ d = '/' := fun hdeq => hshape r' rfl (by rw [hdeq])
        have hstep : doubleSlashReSub ('/' :: d :: r') =
            '/' :: doubleSlashReSub (d :: r') := by
          simp [doubleSlashReSub, hd]
        have hstep2 : specCollapseRunsAux false ('/' :: d :: r') =
            '/' :: specCollapseRunsAux true (d :: r') := rfl
        rw [hstep, ih, hstep2]
        simp [specCollapseRunsAux, hd]
    · have hstep : doubleSlashReSub (c :: rest) = c :: doubleSlashReSub rest := by
        simp [doubleSlashReSub, hc]
      rw [hstep, ih]
      simp [specCollapseRunsAux, hc]

theorem augment_code_challenge (base_url : String) (m : MetaDoc) :
    (augmentCognitoMetadata base_url m).code_challenge_methods_supported = some ["S256"] := by
  by_cases h : "code" ∈ m.response_types_supported.getD [] <;>
    simp [augmentCognitoMetadata, h]

theorem augment_ne_emptyDoc (base_url : String) (m : MetaDoc) :
    augmentCognitoMetadata base_url m ≠ MetaDoc.emptyDoc := by
  intro h
  have hc := augment_code_challenge base_url m
  rw [h] at hc
  simp [MetaDoc.emptyDoc] at hc

/-! ## Claim theorems -/

/-- C1: the augmented AS metadata always carries `["S256"]` PKCE methods, the
fixed grant types and token-endpoint auth methods, contains `"code"` in
`response_types_supported` (appended only when absent, so its multiplicity is
`max` of the input multiplicity and 1), points `registration_endpoint` at
`{base_url}/oauth/register`, overrides `issuer` with the server's own base URL
regardless of the upstream issuer, and is a fixed point of the
transformation. -/
theorem C1_augmented_metadata (base_url : String) (m : MetaDoc) :
    (augmentCognitoMetadata base_url m).code_challenge_methods_supported = some ["S256"] ∧
    (augmentCognitoMetadata base_url m).grant_types_supported =
      some ["authorization_code", "refresh_token"] ∧
    (augmentCognitoMetadata base_url m).token_endpoint_auth_methods_supported =
      some ["client_secret_basic", "client_secret_post", "none"] ∧
    "code" ∈ ((augmentCognitoMetadata base_url m).response_types_supported.getD []) ∧
    ((augmentCognitoMetadata base_url m).response_types_supported.getD []).count "code" =
      max ((m.response_types_supported.getD []).count "code") 1 ∧
    (augmentCognitoMetadata base_url m).registration_endpoint =
      some (base_url ++ "/oauth/register") ∧
    (augmentCognitoMetadata base_url m).issuer = some base_url ∧
    augmentCognitoMetadata base_url (augmentCognitoMetadata base_url m) =
      augmentCognitoMetadata base_url m := by
  by_cases h : "code" ∈ m.response_types_supported.getD []
  · have hpos : 0 < (m.response_types_supported.getD []).count "code" :=
      List.count_pos_iff.mpr h
    simp [augmentCognitoMetadata, h]
  · have hcnt : (m.response_types_supported.getD []).count "code" = 0 :=
      List.count_eq_zero.mpr h
    simp [augmentCognitoMetadata, h, hcnt]

/-- C6: within one process, the first successful call to
`_get_cognito_metadata` fetches exactly once and populates the cache; every
subsequent call — whatever the fetch collaborator would now return — performs
zero outbound fetches, returns the cached document, and leaves the cache
unchanged (never invalidated or refreshed). -/
theorem C6_metadata_cache_single_fetch (base_url : String) (raw : MetaDoc) :
    getCognitoMetadata base_url (.ok raw) none =
      (.ok (augmentCognitoMetadata base_url raw), some (augmentCognitoMetadata base_url raw), 1) ∧
    ∀ fetch : Except Unit MetaDoc,
      getCognitoMetadata base_url fetch (some (augmentCognitoMetadata base_url raw)) =
        (.ok (augmentCognitoMetadata base_url raw), some (augmentCognitoMetadata base_url raw), 0) := by
  refine ⟨rfl, fun fetch => ?_⟩
  simp [getCognitoMetadata, augment_ne_emptyDoc base_url raw]

/-- C7: a failing upstream fetch (non-2xx or network error) makes
`_get_cognito_metadata` raise after exactly one outbound attempt (no retry)
and leaves the cache unpopulated; the error propagates through the discovery
handler; and the next call re-enters the uncached fetch path (performs an
outbound fetch again). -/
theorem C7_fetch_failure_propagates (base_url : String) (e : Unit)
    (fetch2 : Except Unit MetaDoc) :
    getCognitoMetadata base_url (.error e) none = (.error e, none, 1) ∧
    oauthASMetadataHandler "GET" base_url (.error e) none = (.error e, none, 1) ∧
    (getCognitoMetadata base_url fetch2 none).2.2 = 1 := by
  refine ⟨rfl, rfl, ?_⟩
  cases fetch2 <;> rfl

/-- C3 counterexample: an OPTIONS request to
`/.well-known/oauth-authorization-server` with a cold cache performs an
outbound fetch (count 1, not 0), populates the cache, and returns the full
metadata document as body — not an empty-bodied short-circuit. -/
theorem C3_options_counterexample :
    (oauthASMetadataHandler "OPTIONS" "https://mcp.example" (.ok MetaDoc.emptyDoc) none).2.2 = 1 ∧
    (oauthASMetadataHandler "OPTIONS" "https://mcp.example" (.ok MetaDoc.emptyDoc) none).2.1 ≠ none := by
  exact ⟨rfl, by decide⟩

/-- C3 (amended): `_oauth_authorization_server_metadata` never inspects the
request method, so OPTIONS is served exactly like GET: it reads/populates the
metadata cache (fetching upstream when the cache is cold) and returns a 200
whose body is the full augmented metadata document, with the permissive CORS
headers. -/
theorem C3_options_same_as_get (method base_url : String) (raw : MetaDoc)
    (fetch : Except Unit MetaDoc) (cache : Option MetaDoc) :
    oauthASMetadataHandler method base_url fetch cache =
      oauthASMetadataHandler "GET" base_url fetch cache ∧
    oauthASMetadataHandler "OPTIONS" base_url (.ok raw) none =
      (.ok { status := 200, body := augmentCognitoMetadata base_url raw,
             headers := [("Access-Control-Allow-Origin", "*"),
                         ("Access-Control-Allow-Methods", "GET, OPTIONS")] },
       some (augmentCognitoMetadata base_url raw), 1) :=
  ⟨rfl, rfl⟩

/-- C2: `_oauth_register` hands out the public client ID with no
`client_secret` when the requested auth method is `"none"` (explicitly or by
default), and otherwise hands out the confidential client ID together with
the configured secret exactly when one is configured (set and non-empty). -/
theorem C2_register_client_selection (env : RegisterEnv) (body : RegBody) :
    (∀ pid, env.publicClientId = some pid →
      body.token_endpoint_auth_method.getD "none" = "none" →
      registerCredentials (oauthRegisterPost env body) = .ok (pid, none)) ∧
    (∀ aud, env.audience = some aud →
      body.token_endpoint_auth_method.getD "none" ≠ "none" →
      (secretConfigured env →
        registerCredentials (oauthRegisterPost env body) = .ok (aud, env.clientSecret)) ∧
      (¬ secretConfigured env →
        registerCredentials (oauthRegisterPost env body) = .ok (aud, none))) := by
  constructor
  · intro pid hp hm
    cases hcs : env.clientSecret <;>
      simp [oauthRegisterPost, registerCredentials, hm, hp, environGet, Except.map, hcs]
  · intro aud ha hm
    cases hcs : env.clientSecret with
    | none => simp [oauthRegisterPost, registerCredentials, hm, ha, environGet, hcs,
        secretConfigured, Except.map]
    | some s =>
      by_cases hs : s = "" <;>
        simp [oauthRegisterPost, registerCredentials, hm, ha, environGet, hcs,
          secretConfigured, hs, Except.map]

/-- C2 witness: with public client id `"pub-id"`, confidential id `"conf-id"`
and secret `"sek"`, a request for auth method `"client_secret_basic"` gets the
confidential id and the secret. -/
theorem C2_register_client_selection_witness :
    registerCredentials
      (oauthRegisterPost ⟨some "pub-id", some "conf-id", some "sek"⟩
        ⟨none, none, some "client_secret_basic"⟩) = .ok ("conf-id", some "sek") :=
  ((C2_register_client_selection ⟨some "pub-id", some "conf-id", some "sek"⟩
      ⟨none, none, some "client_secret_basic"⟩).2 "conf-id" rfl (by decide)).1
    ⟨"sek", rfl, by decide⟩

/-- C8: for every parsed JSON body, missing fields are defaulted rather than
rejected (`client_name="unknown"`, `token_endpoint_auth_method="none"`,
`redirect_uris=[]`); when both client IDs are configured the handler always
answers 201 with `redirect_uris` and `token_endpoint_auth_method` echoed,
`grant_types` fixed to `["authorization_code","refresh_token"]` and
`response_types` fixed to `["code"]`. -/
theorem C8_register_accepts_all_bodies (env : RegisterEnv) (body : RegBody)
    (pid aud : String) (hp : env.publicClientId = some pid)
    (ha : env.audience = some aud) :
    (oauthRegisterPost env body).map RegResponse.status = .ok 201 ∧
    (oauthRegisterPost env body).map RegResponse.redirect_uris =
      .ok (body.redirect_uris.getD []) ∧
    (oauthRegisterPost env body).map RegResponse.client_name =
      .ok (body.client_name.getD "unknown") ∧
    (oauthRegisterPost env body).map RegResponse.token_endpoint_auth_method =
      .ok (body.token_endpoint_auth_method.getD "none") ∧
    (oauthRegisterPost env body).map RegResponse.grant_types =
      .ok ["authorization_code", "refresh_token"] ∧
    (oauthRegisterPost env body).map RegResponse.response_types = .ok ["code"] := by
  by_cases hm : body.token_endpoint_auth_method.getD "none" = "none" <;>
    simp [oauthRegisterPost, hm, hp, ha, environGet, Except.map]

/-- C8 witness: the empty body `{}` (all fields missing) is accepted with the
defaults echoed back. -/
theorem C8_register_accepts_all_bodies_witness :
    (oauthRegisterPost ⟨some "pub-id", some "conf-id", none⟩ ⟨none, none, none⟩).map
      RegResponse.status = .ok 201 ∧
    (oauthRegisterPost ⟨some "pub-id", some "conf-id", none⟩ ⟨none, none, none⟩).map
      RegResponse.redirect_uris = .ok [] ∧
    (oauthRegisterPost ⟨some "pub-id", some "conf-id", none⟩ ⟨none, none, none⟩).map
      RegResponse.client_name = .ok "unknown" ∧
    (oauthRegisterPost ⟨some "pub-id", some "conf-id", none⟩ ⟨none, none, none⟩).map
      RegResponse.token_endpoint_auth_method = .ok "none" ∧
    (oauthRegisterPost ⟨some "pub-id", some "conf-id", none⟩ ⟨none, none, none⟩).map
      RegResponse.grant_types = .ok ["authorization_code", "refresh_token"] ∧
    (oauthRegisterPost ⟨some "pub-id", some "conf-id", none⟩ ⟨none, none, none⟩).map
      RegResponse.response_types = .ok ["code"] :=
  C8_register_accepts_all_bodies ⟨some "pub-id", some "conf-id", none⟩
    ⟨none, none, none⟩ "pub-id" "conf-id" rfl rfl

/-- C9: the registration responder is deterministic, and its credentials
(`client_id`, optional `client_secret`) depend only on the configuration and
the requested auth method — so two requests with identical bodies (in
particular, with the same `token_endpoint_auth_method`) receive identical
credentials. -/
theorem C9_register_deterministic (env : RegisterEnv) (b1 b2 : RegBody)
    (h : b1.token_endpoint_auth_method.getD "none" =
      b2.token_endpoint_auth_method.getD "none") :
    registerCredentials (oauthRegisterPost env b1) =
      registerCredentials (oauthRegisterPost env b2) := by
  simp only [oauthRegisterPost, registerCredentials, h]
  cases hx : (if b2.token_endpoint_auth_method.getD "none" = "none" then
      environGet "COGNITO_PUBLIC_CLIENT_ID" env.publicClientId
    else environGet "COGNITO_AUDIENCE" env.audience) <;> simp [hx, Except.map]

/-- C9 witness: two identical bodies requesting auth method `"none"` receive
the same credentials. -/
theorem C9_register_deterministic_witness :
    registerCredentials
      (oauthRegisterPost ⟨some "pub-id", some "conf-id", some "sek"⟩
        ⟨some ["https://a/cb"], some "claude", some "none"⟩) =
    registerCredentials
      (oauthRegisterPost ⟨some "pub-id", some "conf-id", some "sek"⟩
        ⟨some ["https://a/cb"], some "claude", some "none"⟩) :=
  C9_register_deterministic ⟨some "pub-id", some "conf-id", some "sek"⟩
    ⟨some ["https://a/cb"], some "claude", some "none"⟩
    ⟨some ["https://a/cb"], some "claude", some "none"⟩ rfl

/-- C10: when the requested auth method is anything other than `"none"`, the
handler unconditionally reads `COGNITO_AUDIENCE`, so with that variable unset
it raises a `KeyError` instead of answering 201 — a configuration
precondition the public branch does not share: under the very same
environment, bodies requesting `"none"` still get a 201 as long as
`COGNITO_PUBLIC_CLIENT_ID` is set. -/
theorem C10_confidential_branch_env_precondition (env : RegisterEnv) (body : RegBody)
    (hm : body.token_endpoint_auth_method.getD "none" ≠ "none")
    (ha : env.audience = none) :
    oauthRegisterPost env body = .error "KeyError: COGNITO_AUDIENCE" ∧
    ∀ pid (body2 : RegBody), env.publicClientId = some pid →
      body2.token_endpoint_auth_method.getD "none" = "none" →
      (oauthRegisterPost env body2).map RegResponse.status = .ok 201 := by
  constructor
  · simp [oauthRegisterPost, hm, ha, environGet]
  · intro pid body2 hp hm2
    simp [oauthRegisterPost, hm2, hp, environGet, Except.map]

/-- C10 witness: with `COGNITO_AUDIENCE` unset, auth method
`"client_secret_post"` raises a `KeyError` while the defaulted `"none"` body
still gets a 201. -/
theorem C10_confidential_branch_env_precondition_witness :
    oauthRegisterPost ⟨some "pub-id", none, none⟩ ⟨none, none, some "client_secret_post"⟩ =
      .error "KeyError: COGNITO_AUDIENCE" ∧
    (oauthRegisterPost ⟨some "pub-id", none, none⟩ ⟨none, none, none⟩).map
      RegResponse.status = .ok 201 := by
  have h := C10_confidential_branch_env_precondition ⟨some "pub-id", none, none⟩
    ⟨none, none, some "client_secret_post"⟩ (by decide) rfl
  exact ⟨h.1, h.2 "pub-id" ⟨none, none, none⟩ rfl rfl⟩

/-- C4: the document served at the root well-known path equals
`{resource, authorization_servers, scopes_supported, bearer_methods_supported}`
built from the trailing-slash-stripped base URL and the mount path; and the
concatenation never introduces a doubled path separator: `resource` contains
`"//"` exactly where the stripped base URL or the mount path already did, so
for every base URL — even one ending in a separator — the junction is
separator-clean. -/
theorem C4_root_protected_resource (base_url mcp_path : String) :
    rootProtectedResourceMetadata base_url mcp_path =
      { resource := rstripSlash base_url ++ mcp_path
        authorization_servers := [rstripSlash base_url]
        scopes_supported := []
        bearer_methods_supported := ["header"] } ∧
    containsDoubleSlash (rootProtectedResourceMetadata base_url mcp_path).resource.data =
      (containsDoubleSlash (rstripSlash base_url).data ||
        containsDoubleSlash mcp_path.data) := by
  refine ⟨rfl, ?_⟩
  show containsDoubleSlash (rstripSlash base_url ++ mcp_path).data = _
  have hdata : (rstripSlash base_url ++ mcp_path).data =
      (rstripSlash base_url).data ++ mcp_path.data := by
    simp [String.data_append]
  rw [hdata]
  exact containsDoubleSlash_append _ _ (dropTrailingSlashes_getLast _)

/-- C5: the middleware's path rewrite equals the spec-side run-collapse — every
maximal run of two or more consecutive separators becomes a single separator —
and a path without two consecutive separators is passed through unchanged, the
substitution being skipped entirely; e.g. `"//a///b"` becomes `"/a/b"`. -/
theorem C5_slash_normalization (p : List Char) :
    slashNormalizePath p = specCollapseRuns p ∧
    (containsDoubleSlash p = false → slashNormalizePath p = p) ∧
    slashNormalizePath ['/', '/', 'a', '/', '/', '/', 'b'] = ['/', 'a', '/', 'b'] := by
  refine ⟨?_, fun h => by simp [slashNormalizePath, h], ?_⟩
  · by_cases h : containsDoubleSlash p
    · unfold slashNormalizePath specCollapseRuns
      rw [if_pos h, reSub_eq_specCollapse]
    · simp only [Bool.not_eq_true] at h
      unfold slashNormalizePath specCollapseRuns
      rw [if_neg (by simp [h]), (specAux_id_of_no_double p).1 h]
  · have h : containsDoubleSlash ['/', '/', 'a', '/', '/', '/', 'b'] = true := by decide
    unfold slashNormalizePath
    rw [if_pos h, reSub_eq_specCollapse]
    decide

/-- C5 witness: `"/a/b"` has no doubled separator and is returned unchanged. -/
theorem C5_slash_normalization_witness :
    slashNormalizePath ['/', 'a', '/', 'b'] = ['/', 'a', '/', 'b'] :=
  (C5_slash_normalization ['/', 'a', '/', 'b']).2.1 (by decide)

end FastmailMCP
